import Mathlib

/-!
Shallow embedding of the authentication workflow of the CRUD-Generator
repository: AuthService (register, login, generateTokens, refreshToken),
TokenService, the Prisma-backed stores for users and refresh tokens, and
the AuthenticationGuard strategy composer.  Machine-level concerns (HTTP,
serialisation, dependency injection) are out of scope; errors thrown by
the TypeScript code are modelled as values of an error type, and the
mutable database as explicit state passing where a thrown error keeps the
state reached at the throw point.
-/

namespace CrudGen

/-- Errors observable at the AuthService and guard boundary.  `conflict`,
`unauthorizedMsg`/`unauthorized` and `unprocessableEntity` model the
NestJS exception classes (with or without a message); `prismaKnown code`
models `Prisma.PrismaClientKnownRequestError` carrying a Prisma error
code; `jwt` models the errors thrown by JWT verification. -/
inductive AppError where
  | conflict (msg : String)
  | unauthorizedMsg (msg : String)
  | unauthorized
  | unprocessableEntity (field msg : String)
  | prismaKnown (code : String)
  | jwt (msg : String)
deriving DecidableEq, Repr

/-- Embeds `isUnqueConstraintPrismaError` from `src/shared/helper.ts`:
true exactly for a known Prisma request error with code P2002. -/
def isUnqueConstraintPrismaError : AppError → Bool
  | .prismaKnown code => code == "P2002"
  | _ => false

/-- Embeds `isNotFoundPrismaError` from `src/shared/helper.ts`:
true exactly for a known Prisma request error with code P2025. -/
def isNotFoundPrismaError : AppError → Bool
  | .prismaKnown code => code == "P2025"
  | _ => false

/-- Modelled from the spec: the repository file
`src/shared/services/hashing.service.ts` is not present (only its tests
are).  Per spec section 4.1 the hasher is a one-way bcrypt hash with
`compare(plaintext, hash)` succeeding exactly when the hash was produced
from the same plaintext; we model hashes symbolically. -/
inductive HashedPassword where
  | bcrypt (plain : String)
deriving DecidableEq, Repr

/-- Modelled from the spec: `HashingService.hash` (bcrypt, salt rounds
elided in the symbolic model). -/
def HashingService.hash (plain : String) : HashedPassword :=
  .bcrypt plain

/-- Modelled from the spec: `HashingService.compare` succeeds exactly when
the stored hash came from the presented plaintext. -/
def HashingService.compare (plain : String) (h : HashedPassword) : Bool :=
  h == HashedPassword.bcrypt plain

/-- The JWT claims carried by both token classes, as in
`src/shared/types/jwt.type.ts`: userId plus issued-at and expiry
(seconds since epoch). -/
structure TokenPayload where
  userId : Nat
  iat : Nat
  exp : Nat
deriving DecidableEq, Repr

/-- A signed JWT, modelled symbolically: the opaque signed string is
represented by the signing secret together with the payload, so that
verification with a secret succeeds exactly on tokens signed with that
same secret (HS256 HMAC model). -/
structure SignedToken where
  secret : String
  payload : TokenPayload
deriving DecidableEq, Repr

/-- The environment configuration consumed by TokenService and the API
key guard (`src/shared/config.ts`); lifetimes are in seconds.  Concrete
representative values: 15 minutes for access tokens, 7 days for refresh
tokens, matching the lifetimes exercised in the repository tests. -/
structure EnvConfig where
  ACCESS_TOKEN_SECRET : String
  ACCESS_TOKEN_EXPIRES_IN : Nat
  REFRESH_TOKEN_SECRET : String
  REFRESH_TOKEN_EXPIRES_IN : Nat
  SECRET_API_KEY : String
deriving Repr

def envConfig : EnvConfig :=
  { ACCESS_TOKEN_SECRET := "access-secret"
    ACCESS_TOKEN_EXPIRES_IN := 900
    REFRESH_TOKEN_SECRET := "refresh-secret"
    REFRESH_TOKEN_EXPIRES_IN := 604800
    SECRET_API_KEY := "api-key-secret" }

/-- Embeds `TokenService.signAccessToken`: HS256 sign with the access
secret and the configured access lifetime; `now` is the signing time in
seconds since epoch (the `iat` claim the JWT library stamps). -/
def TokenService.signAccessToken (now : Nat) (userId : Nat) : SignedToken :=
  { secret := envConfig.ACCESS_TOKEN_SECRET
    payload := { userId := userId, iat := now, exp := now + envConfig.ACCESS_TOKEN_EXPIRES_IN } }

/-- Embeds `TokenService.signRefreshToken`: HS256 sign with the distinct
refresh secret and the configured refresh lifetime. -/
def TokenService.signRefreshToken (now : Nat) (userId : Nat) : SignedToken :=
  { secret := envConfig.REFRESH_TOKEN_SECRET
    payload := { userId := userId, iat := now, exp := now + envConfig.REFRESH_TOKEN_EXPIRES_IN } }

/-- Embeds `TokenService.verifyAccessToken`: verification fails on a
signature produced with a different secret, or on an expired token, and
otherwise returns the decoded payload. -/
def TokenService.verifyAccessToken (now : Nat) (t : SignedToken) :
    Except AppError TokenPayload :=
  if t.secret ≠ envConfig.ACCESS_TOKEN_SECRET then .error (.jwt "invalid signature")
  else if t.payload.exp ≤ now then .error (.jwt "jwt expired")
  else .ok t.payload

/-- Embeds `TokenService.verifyRefreshToken`: same failure modes as
access verification, against the refresh secret. -/
def TokenService.verifyRefreshToken (now : Nat) (t : SignedToken) :
    Except AppError TokenPayload :=
  if t.secret ≠ envConfig.REFRESH_TOKEN_SECRET then .error (.jwt "invalid signature")
  else if t.payload.exp ≤ now then .error (.jwt "jwt expired")
  else .ok t.payload

/-- A row of the `User` table (fields not read by the auth workflow,
such as timestamps, are elided). -/
structure User where
  id : Nat
  email : String
  name : String
  password : HashedPassword
deriving DecidableEq, Repr

/-- A row of the `RefreshToken` table: keyed by the unique token string,
owned by `userId`, with `expiresAt` in milliseconds since epoch (the
TypeScript `Date`). -/
structure RefreshTokenRecord where
  token : SignedToken
  userId : Nat
  expiresAt : Nat
deriving DecidableEq, Repr

/-- The database state seen through the Prisma client: the users table,
the refresh-token table, and the id autoincrement counter. -/
structure Db where
  users : List User
  refreshTokens : List RefreshTokenRecord
  nextUserId : Nat
deriving DecidableEq, Repr

/-- Embeds `prisma.user.create` with the unique constraint on email:
raises Prisma error P2002 when a user with the same email exists,
otherwise inserts the row and returns it. -/
def Db.userCreate (db : Db) (email : String) (password : HashedPassword) (name : String) :
    Except AppError (User × Db) :=
  if db.users.any (fun u => u.email == email) then .error (.prismaKnown "P2002")
  else
    let u : User := { id := db.nextUserId, email := email, name := name, password := password }
    .ok (u, { db with users := db.users ++ [u], nextUserId := db.nextUserId + 1 })

/-- Embeds `prisma.user.findUnique({where: {email}})`. -/
def Db.userFindUnique (db : Db) (email : String) : Option User :=
  db.users.find? (fun u => u.email == email)

/-- Embeds `prisma.refreshToken.create` with the unique constraint on the
token string: raises Prisma error P2002 on a duplicate token, otherwise
appends the row. -/
def Db.refreshTokenCreate (db : Db) (r : RefreshTokenRecord) : Except AppError Db :=
  if db.refreshTokens.any (fun x => x.token == r.token) then .error (.prismaKnown "P2002")
  else .ok { db with refreshTokens := db.refreshTokens ++ [r] }

/-- Embeds `prisma.refreshToken.findUniqueOrThrow({where: {token}})`:
raises Prisma error P2025 when no row has that token. -/
def Db.refreshTokenFindUniqueOrThrow (db : Db) (t : SignedToken) :
    Except AppError RefreshTokenRecord :=
  match db.refreshTokens.find? (fun x => x.token == t) with
  | some r => .ok r
  | none => .error (.prismaKnown "P2025")

/-- Embeds `prisma.refreshToken.delete({where: {token}})`: an atomic
conditional delete on the unique key that raises Prisma error P2025 when
the row is absent and otherwise removes it. -/
def Db.refreshTokenDelete (db : Db) (t : SignedToken) : Except AppError Db :=
  if db.refreshTokens.any (fun x => x.token == t) then
    .ok { db with refreshTokens := db.refreshTokens.filter (fun x => x.token != t) }
  else .error (.prismaKnown "P2025")

/-- Embeds the catch block of `AuthService.register`: a unique-constraint
store error becomes `ConflictException` with message "Email already
exists"; every other error is rethrown unchanged. -/
def AuthService.registerCatch (e : AppError) : AppError :=
  if isUnqueConstraintPrismaError e then .conflict "Email already exists" else e

/-- Embeds `AuthService.register`: hash the password, insert the user,
translating store errors through the catch block.  The second component
is the database state after the call (unchanged when the insert threw). -/
def AuthService.register (db : Db) (email password name : String) :
    Except AppError User × Db :=
  let hashedPassword := HashingService.hash password
  match db.userCreate email hashedPassword name with
  | .ok (u, db1) => (.ok u, db1)
  | .error e => (.error (AuthService.registerCatch e), db)

/-- The token pair returned by login and refresh. -/
structure TokenPair where
  accessToken : SignedToken
  refreshToken : SignedToken
deriving DecidableEq, Repr

/-- Embeds `AuthService.generateTokens`: sign both tokens, decode the
refresh token by verifying it, and persist a RefreshToken row keyed by
the exact signed refresh token with `expiresAt = exp * 1000`
(milliseconds), propagating any error with the state unchanged. -/
def AuthService.generateTokens (now : Nat) (userId : Nat) (db : Db) :
    Except AppError TokenPair × Db :=
  let accessToken := TokenService.signAccessToken now userId
  let refreshToken := TokenService.signRefreshToken now userId
  match TokenService.verifyRefreshToken now refreshToken with
  | .error e => (.error e, db)
  | .ok decodeRefreshToken =>
    match db.refreshTokenCreate
        { token := refreshToken, userId := userId,
          expiresAt := decodeRefreshToken.exp * 1000 } with
    | .error e => (.error e, db)
    | .ok db1 => (.ok { accessToken := accessToken, refreshToken := refreshToken }, db1)

/-- Embeds `AuthService.login`: look up the user by email
(`UnauthorizedException('Account does not exist')` when absent), compare
the password hash (`UnprocessableEntityException` on mismatch), then
generate the token pair. -/
def AuthService.login (now : Nat) (db : Db) (email password : String) :
    Except AppError TokenPair × Db :=
  match db.userFindUnique email with
  | none => (.error (.unauthorizedMsg "Account does not exist"), db)
  | some user =>
    if ¬ HashingService.compare password user.password then
      (.error (.unprocessableEntity "password" "Incorrect password"), db)
    else AuthService.generateTokens now user.id db

/-- The try block of `AuthService.refreshToken`: verify the presented
token, look it up, delete it, then generate the replacement pair.  Each
failing step aborts with the state reached so far. -/
def AuthService.refreshTokenTry (now : Nat) (db : Db) (t : SignedToken) :
    Except AppError TokenPair × Db :=
  match TokenService.verifyRefreshToken now t with
  | .error e => (.error e, db)
  | .ok payload =>
    match db.refreshTokenFindUniqueOrThrow t with
    | .error e => (.error e, db)
    | .ok _ =>
      match db.refreshTokenDelete t with
      | .error e => (.error e, db)
      | .ok db1 => AuthService.generateTokens now payload.userId db1

/-- Embeds `AuthService.refreshToken`: the try block wrapped in the catch
block that maps a Prisma not-found error to
`UnauthorizedException('Refresh token has been revoked')` and every other
error to a bare `UnauthorizedException`. -/
def AuthService.refreshToken (now : Nat) (db : Db) (t : SignedToken) :
    Except AppError TokenPair × Db :=
  match AuthService.refreshTokenTry now db t with
  | (.ok pair, db1) => (.ok pair, db1)
  | (.error e, db1) =>
    if isNotFoundPrismaError e then
      (.error (.unauthorizedMsg "Refresh token has been revoked"), db1)
    else (.error .unauthorized, db1)

/-- The authentication strategies of `src/shared/constants/auth.constant.ts`. -/
inductive AuthType where
  | Bearer
  | APIKey
  | None
deriving DecidableEq, Repr

/-- The guard combinators of `src/shared/constants/auth.constant.ts`. -/
inductive ConditionGuard where
  | And
  | Or
deriving DecidableEq, Repr

/-- The parts of the inbound request read by the guards: the bearer token
extracted from the authorization header (if present and well-formed) and
the `x-api-key` header. -/
structure GuardRequest where
  authorizationToken : Option SignedToken
  xApiKey : Option String
deriving DecidableEq, Repr

/-- Modelled from the spec: `src/shared/guards/access-token.guard.ts` is
not present (only its caller is).  Per spec section 4.4 the BearerToken
strategy extracts the token from the designated request field and calls
`verifyAccessToken`; success is a valid unexpired signature, failure
throws `Unauthorized`. -/
def AccessTokenGuard.canActivate (now : Nat) (req : GuardRequest) :
    Except AppError Bool :=
  match req.authorizationToken with
  | none => .error .unauthorized
  | some t =>
    match TokenService.verifyAccessToken now t with
    | .ok _ => .ok true
    | .error _ => .error .unauthorized

/-- Embeds `APIKeyGuard.canActivate` from
`src/shared/guards/api-key.guard.ts`: throw `UnauthorizedException` when
the `x-api-key` header differs from the configured secret, else true. -/
def APIKeyGuard.canActivate (req : GuardRequest) : Except AppError Bool :=
  if req.xApiKey ≠ some envConfig.SECRET_API_KEY then .error .unauthorized
  else .ok true

/-- The `authTypeGuardMap` of `AuthenticationGuard`: Bearer dispatches to
the access-token guard, APIKey to the API-key guard, and None to a guard
whose `canActivate` is constantly true. -/
def authTypeGuardMap (now : Nat) (req : GuardRequest) :
    AuthType → Except AppError Bool
  | .Bearer => AccessTokenGuard.canActivate now req
  | .APIKey => APIKeyGuard.canActivate req
  | .None => .ok true

/-- The OR branch of `AuthenticationGuard.canActivate`: walk the guard
outcomes in order threading the mutable `error` variable; a caught error
replaces it, a true outcome returns immediately, and after the loop the
held error is thrown. -/
def orLoop (err : AppError) : List (Except AppError Bool) → Except AppError Bool
  | [] => .error err
  | g :: gs =>
    match g with
    | .ok true => .ok true
    | .ok false => orLoop err gs
    | .error e => orLoop e gs

/-- The AND branch of `AuthenticationGuard.canActivate`: walk the guard
outcomes in order; a caught error is thrown at once, a plain false
outcome throws the error variable held at that point (the initial
generic `UnauthorizedException`, since an earlier catch would already
have thrown), and an exhausted loop returns true. -/
def andLoop (err : AppError) : List (Except AppError Bool) → Except AppError Bool
  | [] => .ok true
  | g :: gs =>
    match g with
    | .ok true => andLoop err gs
    | .ok false => .error err
    | .error e => .error e

/-- The route metadata attached by the `Auth` decorator
(`src/shared/decorators/auth.decorator.ts`). -/
structure AuthTypeDecoratorPayload where
  authTypes : List AuthType
  condition : ConditionGuard
deriving DecidableEq, Repr

/-- Embeds `AuthenticationGuard.canActivate` from
`src/shared/guards/authentication.guard.ts`: read the route metadata
(defaulting to None strategies with AND), map the declared strategies to
their guards, initialise the error variable to a generic
`UnauthorizedException`, and run the OR or AND loop. -/
def AuthenticationGuard.canActivate (now : Nat) (req : GuardRequest)
    (authTypeMeta : Option AuthTypeDecoratorPayload) : Except AppError Bool :=
  let authTypeValue := authTypeMeta.getD { authTypes := [.None], condition := .And }
  let guards := authTypeValue.authTypes.map (authTypeGuardMap now req)
  if authTypeValue.condition = .Or then orLoop .unauthorized guards
  else andLoop .unauthorized guards

/-!
Interleaving model for concurrent `refresh` calls.  N logical tasks each
run `AuthService.refreshToken` with the same presented token `t`; every
store operation (the `findUniqueOrThrow`, the conditional `delete`, the
`create` inside `generateTokens`) is an atomic step on the shared
refresh-token table, and the scheduler may interleave the tasks at every
await point.  Signature verification is a pure step that does not touch
the store; the model covers the scenario of the concurrency claim, where
the presented token verifies successfully for every caller.  `freshRec i`
is the replacement RefreshToken row task `i` would persist if it wins.
-/

/-- The program counter of one concurrent `refresh` task: before
verification, after verification, after a successful lookup, after a
successful delete, and the three terminal outcomes (success, the revoked
authorization failure from a P2025, the generic authorization failure
from any other caught error). -/
inductive RefreshPc where
  | start
  | verified
  | found
  | deleted
  | succeeded
  | failedRevoked
  | failedGeneric
deriving DecidableEq, Repr

/-- Shared state of the N interleaved refresh tasks: the refresh-token
table and each task program counter. -/
structure ConcState (n : Nat) where
  store : List RefreshTokenRecord
  pc : Fin n → RefreshPc

/-- One atomic step of task `i` presenting token `t`:
verification (pure), `findUniqueOrThrow` (hit or P2025 miss, the miss
caught as the revoked failure), the conditional `delete` (hit removes the
row; a P2025 miss is caught as the revoked failure), and the `create` of
the replacement row inside `generateTokens` (a unique-constraint P2002 on
a duplicate token is caught as the generic failure). -/
inductive RefreshStep (t : SignedToken) (freshRec : Fin n → RefreshTokenRecord)
    (i : Fin n) : ConcState n → ConcState n → Prop where
  | verify (s : ConcState n) :
      s.pc i = .start →
      RefreshStep t freshRec i s { s with pc := Function.update s.pc i .verified }
  | lookupHit (s : ConcState n) :
      s.pc i = .verified →
      s.store.any (fun r => r.token == t) = true →
      RefreshStep t freshRec i s { s with pc := Function.update s.pc i .found }
  | lookupMiss (s : ConcState n) :
      s.pc i = .verified →
      s.store.any (fun r => r.token == t) = false →
      RefreshStep t freshRec i s { s with pc := Function.update s.pc i .failedRevoked }
  | deleteHit (s : ConcState n) :
      s.pc i = .found →
      s.store.any (fun r => r.token == t) = true →
      RefreshStep t freshRec i s
        { store := s.store.filter (fun r => r.token != t)
          pc := Function.update s.pc i .deleted }
  | deleteMiss (s : ConcState n) :
      s.pc i = .found →
      s.store.any (fun r => r.token == t) = false →
      RefreshStep t freshRec i s { s with pc := Function.update s.pc i .failedRevoked }
  | reissueOk (s : ConcState n) :
      s.pc i = .deleted →
      s.store.any (fun r => r.token == (freshRec i).token) = false →
      RefreshStep t freshRec i s
        { store := s.store ++ [freshRec i]
          pc := Function.update s.pc i .succeeded }
  | reissueDup (s : ConcState n) :
      s.pc i = .deleted →
      s.store.any (fun r => r.token == (freshRec i).token) = true →
      RefreshStep t freshRec i s { s with pc := Function.update s.pc i .failedGeneric }

/-- The global step: some task takes an atomic step. -/
def ConcStep (t : SignedToken) (freshRec : Fin n → RefreshTokenRecord)
    (s s1 : ConcState n) : Prop :=
  ∃ i, RefreshStep t freshRec i s s1

/-- Reachability under interleaved refresh steps. -/
def ConcReach (t : SignedToken) (freshRec : Fin n → RefreshTokenRecord) :
    ConcState n → ConcState n → Prop :=
  Relation.ReflTransGen (ConcStep t freshRec)

/-- A task that has redeemed the token: it deleted the row and has not
failed since (deleted or succeeded). -/
def isWinner (s : ConcState n) (i : Fin n) : Prop :=
  s.pc i = .deleted ∨ s.pc i = .succeeded

/-- A terminal program counter: the task has finished with one of the
three outcomes. -/
def RefreshPc.terminal : RefreshPc → Bool
  | .succeeded => true
  | .failedRevoked => true
  | .failedGeneric => true
  | _ => false

/-- The inductive invariant of the interleaved refresh race for a
presented token `t`: no task has hit the generic failure; either nobody
has redeemed `t` yet and its row is still stored, or exactly one task has
(and the row is gone); a replacement row in the store means some task
already succeeded; and once some task has failed with the revoked error a
redeeming task exists. -/
def ConcInv (t : SignedToken) (freshRec : Fin n → RefreshTokenRecord)
    (s : ConcState n) : Prop :=
  (∀ i, s.pc i ≠ .failedGeneric) ∧
  ((s.store.any (fun r => r.token == t) = true ∧ ∀ i, ¬ isWinner s i) ∨
   (s.store.any (fun r => r.token == t) = false ∧
     ∃ w, isWinner s w ∧ ∀ j, isWinner s j → j = w)) ∧
  (∀ i, s.store.any (fun r => r.token == (freshRec i).token) = true →
    ∃ k, s.pc k = .succeeded) ∧
  ((∃ i, s.pc i = .failedRevoked) → ∃ w, isWinner s w)

/-- Concrete refresh token presented by both racing tasks of the C2
witness run (user 7, expiring at 100 s). -/
def raceToken : SignedToken :=
  { secret := "refresh-secret", payload := { userId := 7, iat := 0, exp := 100 } }

/-- Replacement rows the two racing witness tasks would persist. -/
def raceFreshRec : Fin 2 → RefreshTokenRecord := fun _ =>
  { token := { secret := "refresh-secret", payload := { userId := 7, iat := 0, exp := 604800 } },
    userId := 7, expiresAt := 604800000 }

/-- Initial state of the witness race: the presented token is stored,
both tasks are at the start. -/
def raceInit : ConcState 2 :=
  { store := [{ token := raceToken, userId := 7, expiresAt := 100000 }]
    pc := fun _ => .start }

/-- Witness race after task 0 verified the token. -/
def raceS1 : ConcState 2 :=
  { raceInit with pc := Function.update raceInit.pc 0 .verified }

/-- Witness race after task 0 found the stored row. -/
def raceS2 : ConcState 2 :=
  { raceS1 with pc := Function.update raceS1.pc 0 .found }

/-- Witness race after task 0 deleted the row. -/
def raceS3 : ConcState 2 :=
  { store := raceS2.store.filter (fun r => r.token != raceToken)
    pc := Function.update raceS2.pc 0 .deleted }

/-- Witness race after task 0 persisted its replacement row and
succeeded. -/
def raceS4 : ConcState 2 :=
  { store := raceS3.store ++ [raceFreshRec 0]
    pc := Function.update raceS3.pc 0 .succeeded }

/-- Witness race after task 1 verified the token. -/
def raceS5 : ConcState 2 :=
  { raceS4 with pc := Function.update raceS4.pc 1 .verified }

/-- Final state of the witness race: task 1 found no stored row and
failed with the revoked error. -/
def raceS6 : ConcState 2 :=
  { raceS5 with pc := Function.update raceS5.pc 1 .failedRevoked }

/-!  Helper lemmas shared by the claim theorems. -/

theorem verifyRefreshToken_signRefreshToken (now uid : Nat) :
    TokenService.verifyRefreshToken now (TokenService.signRefreshToken now uid) =
      .ok { userId := uid, iat := now, exp := now + envConfig.REFRESH_TOKEN_EXPIRES_IN } := by
  simp only [TokenService.verifyRefreshToken, TokenService.signRefreshToken]
  rw [if_neg (by simp), if_neg (by simp [envConfig])]

theorem verifyAccessToken_signAccessToken (now uid : Nat) :
    TokenService.verifyAccessToken now (TokenService.signAccessToken now uid) =
      .ok { userId := uid, iat := now, exp := now + envConfig.ACCESS_TOKEN_EXPIRES_IN } := by
  simp only [TokenService.verifyAccessToken, TokenService.signAccessToken]
  rw [if_neg (by simp), if_neg (by simp [envConfig])]

theorem generateTokens_ok (now uid : Nat) (db : Db)
    (hfresh : db.refreshTokens.any
      (fun r => r.token == TokenService.signRefreshToken now uid) = false) :
    AuthService.generateTokens now uid db =
      (.ok { accessToken := TokenService.signAccessToken now uid,
             refreshToken := TokenService.signRefreshToken now uid },
       { db with refreshTokens := db.refreshTokens ++
          [{ token := TokenService.signRefreshToken now uid, userId := uid,
             expiresAt := (now + envConfig.REFRESH_TOKEN_EXPIRES_IN) * 1000 }] }) := by
  simp only [AuthService.generateTokens, verifyRefreshToken_signRefreshToken,
    Db.refreshTokenCreate, hfresh, Bool.false_eq_true, if_false]

theorem verifyRefreshToken_error_is_jwt (now : Nat) (t : SignedToken) (e : AppError)
    (h : TokenService.verifyRefreshToken now t = .error e) : ∃ m, e = .jwt m := by
  unfold TokenService.verifyRefreshToken at h
  split at h
  · injection h with h1
    exact ⟨"invalid signature", h1.symm⟩
  · split at h
    · injection h with h1
      exact ⟨"jwt expired", h1.symm⟩
    · exact Except.noConfusion h

theorem generateTokens_error_state (now uid : Nat) (db : Db) (e : AppError)
    (h : (AuthService.generateTokens now uid db).1 = .error e) :
    isNotFoundPrismaError e = false ∧ (AuthService.generateTokens now uid db).2 = db := by
  simp only [AuthService.generateTokens, verifyRefreshToken_signRefreshToken,
    Db.refreshTokenCreate] at h ⊢
  by_cases hc : (db.refreshTokens.any
      fun x => x.token == TokenService.signRefreshToken now uid) = true
  · rw [if_pos hc] at h ⊢
    have h2 : AppError.prismaKnown "P2002" = e := by simpa using h
    subst h2
    exact ⟨rfl, rfl⟩
  · rw [if_neg hc] at h
    simp at h

theorem any_true_exists_find (l : List α) (p : α → Bool) (h : l.any p = true) :
    ∃ x, l.find? p = some x := by
  induction l with
  | nil => simp at h
  | cons a l ih =>
    by_cases ha : p a
    · exact ⟨a, by simp [List.find?, ha]⟩
    · have ha1 : p a = false := by simpa using ha
      rw [List.any_cons, ha1, Bool.false_or] at h
      obtain ⟨x, hx⟩ := ih h
      exact ⟨x, by simp [List.find?, ha1, hx]⟩

theorem any_false_find_none (l : List α) (p : α → Bool) (h : l.any p = false) :
    l.find? p = none := by
  induction l with
  | nil => rfl
  | cons a l ih =>
    rw [List.any_cons] at h
    have h1 : p a = false ∧ l.any p = false := by
      constructor <;> [skip; skip] <;>
        cases hpa : p a <;> cases hl : l.any p <;> simp_all
    simp [List.find?, h1.1, ih h1.2]

/-- C3: when signature or expiry verification of the presented refresh
token fails, `AuthService.refreshToken` raises the bare (generic)
`UnauthorizedException` and the database state is returned unchanged: no
lookup succeeded, nothing was deleted and nothing was created. -/
theorem auth_refresh_verify_failure_leaves_store_untouched
    (now : Nat) (db : Db) (t : SignedToken) (e : AppError)
    (hver : TokenService.verifyRefreshToken now t = .error e) :
    AuthService.refreshToken now db t = (.error .unauthorized, db) := by
  obtain ⟨m, hm⟩ := verifyRefreshToken_error_is_jwt now t e hver
  subst hm
  simp [AuthService.refreshToken, AuthService.refreshTokenTry, hver, isNotFoundPrismaError]

/-- Witness for C3: an expired refresh token (exp 5, presented at time
10) is rejected with the bare unauthorized error while the stored record
for it stays in place. -/
theorem auth_refresh_verify_failure_witness :
    AuthService.refreshToken 10
      { users := [], nextUserId := 1,
        refreshTokens := [{ token := { secret := "refresh-secret",
                                       payload := { userId := 1, iat := 0, exp := 5 } },
                            userId := 1, expiresAt := 5000 }] }
      { secret := "refresh-secret", payload := { userId := 1, iat := 0, exp := 5 } } =
    (.error .unauthorized,
     { users := [], nextUserId := 1,
       refreshTokens := [{ token := { secret := "refresh-secret",
                                      payload := { userId := 1, iat := 0, exp := 5 } },
                           userId := 1, expiresAt := 5000 }] }) :=
  auth_refresh_verify_failure_leaves_store_untouched 10 _ _ (.jwt "jwt expired") rfl

/-- C4: `AuthService.generateTokens` persists exactly one new
refresh-token row, appended to the table: its key is the exact signed
refresh token and its stored `expiresAt` is the expiry claim carried by
that token itself, converted to milliseconds (`exp * 1000`), not an
independently recomputed expiry. -/
theorem auth_generateTokens_persists_token_keyed_record
    (now userId : Nat) (db : Db)
    (hfresh : db.refreshTokens.any
      (fun r => r.token == TokenService.signRefreshToken now userId) = false) :
    AuthService.generateTokens now userId db =
      (.ok { accessToken := TokenService.signAccessToken now userId,
             refreshToken := TokenService.signRefreshToken now userId },
       { db with refreshTokens := db.refreshTokens ++
          [{ token := TokenService.signRefreshToken now userId, userId := userId,
             expiresAt := (TokenService.signRefreshToken now userId).payload.exp * 1000 }] }) := by
  rw [generateTokens_ok now userId db hfresh]
  simp [TokenService.signRefreshToken]

/-- Witness for C4: generating tokens for user 1 at time 0 on an empty
database stores the single row keyed by the signed refresh token with
expiresAt 604800000 ms, the exp claim (604800 s) of that token. -/
theorem auth_generateTokens_witness :
    AuthService.generateTokens 0 1 { users := [], refreshTokens := [], nextUserId := 2 } =
      (.ok { accessToken := TokenService.signAccessToken 0 1,
             refreshToken := TokenService.signRefreshToken 0 1 },
       { users := [], nextUserId := 2,
         refreshTokens := [{ token := TokenService.signRefreshToken 0 1, userId := 1,
                             expiresAt := (TokenService.signRefreshToken 0 1).payload.exp * 1000 }] }) :=
  auth_generateTokens_persists_token_keyed_record 0 1 _ rfl

/-- C5: when the users table already holds the email,
`AuthService.register` fails with `ConflictException('Email already
exists')` and the database is unchanged (no second row); and the register
catch block passes every error that is not a unique-constraint violation
through unchanged. -/
theorem auth_register_duplicate_email_conflict
    (db : Db) (email password name : String)
    (hdup : db.users.any (fun u => u.email == email) = true) :
    AuthService.register db email password name =
      (.error (.conflict "Email already exists"), db) ∧
    ∀ e : AppError, isUnqueConstraintPrismaError e = false →
      AuthService.registerCatch e = e := by
  constructor
  · simp [AuthService.register, Db.userCreate, hdup, AuthService.registerCatch,
      isUnqueConstraintPrismaError]
  · intro e he
    simp [AuthService.registerCatch, he]

/-- Witness for C5: registering the already-present email a@x.com again
fails with the conflict error and leaves the single user row alone. -/
theorem auth_register_duplicate_email_witness :
    AuthService.register
      { users := [{ id := 1, email := "a@x.com", name := "A",
                    password := HashingService.hash "pw1" }],
        refreshTokens := [], nextUserId := 2 }
      "a@x.com" "pw2" "B" =
    (.error (.conflict "Email already exists"),
     { users := [{ id := 1, email := "a@x.com", name := "A",
                   password := HashingService.hash "pw1" }],
       refreshTokens := [], nextUserId := 2 }) :=
  (auth_register_duplicate_email_conflict
    { users := [{ id := 1, email := "a@x.com", name := "A",
                  password := HashingService.hash "pw1" }],
      refreshTokens := [], nextUserId := 2 }
    "a@x.com" "pw2" "B" rfl).1

/-- C6: `AuthService.login` fails with the account-not-found
authorization error when no user has the email; fails with the
incorrect-password error, creating no refresh-token row (database
unchanged), when the hash comparison fails; and otherwise hands over to
`AuthService.generateTokens` (the issueTokenPair step) for the found
user. -/
theorem auth_login_error_paths (now : Nat) (db : Db) (email password : String) :
    (db.userFindUnique email = none →
      AuthService.login now db email password =
        (.error (.unauthorizedMsg "Account does not exist"), db)) ∧
    (∀ u, db.userFindUnique email = some u →
      HashingService.compare password u.password = false →
      AuthService.login now db email password =
        (.error (.unprocessableEntity "password" "Incorrect password"), db)) ∧
    (∀ u, db.userFindUnique email = some u →
      HashingService.compare password u.password = true →
      AuthService.login now db email password = AuthService.generateTokens now u.id db) := by
  refine ⟨fun hnone => ?_, fun u hu hcmp => ?_, fun u hu hcmp => ?_⟩
  · simp [AuthService.login, hnone]
  · simp [AuthService.login, hu, hcmp]
  · simp [AuthService.login, hu, hcmp]

/-- Witness for C6: logging in as the existing user u@x.com with a wrong
password fails with the incorrect-password error and creates zero
refresh-token rows. -/
theorem auth_login_error_paths_witness :
    AuthService.login 0
      { users := [{ id := 1, email := "u@x.com", name := "U",
                    password := HashingService.hash "right" }],
        refreshTokens := [], nextUserId := 2 }
      "u@x.com" "wrong" =
    (.error (.unprocessableEntity "password" "Incorrect password"),
     { users := [{ id := 1, email := "u@x.com", name := "U",
                   password := HashingService.hash "right" }],
       refreshTokens := [], nextUserId := 2 }) :=
  (auth_login_error_paths 0
    { users := [{ id := 1, email := "u@x.com", name := "U",
                  password := HashingService.hash "right" }],
      refreshTokens := [], nextUserId := 2 }
    "u@x.com" "wrong").2.1
    { id := 1, email := "u@x.com", name := "U", password := HashingService.hash "right" }
    rfl rfl

theorem filter_removes_token (l : List RefreshTokenRecord) (t : SignedToken) :
    (l.filter (fun r => r.token != t)).any (fun r => r.token == t) = false := by
  rw [List.any_eq_false]
  intro x hx
  have hx2 : (x.token != t) = true := (List.mem_filter.mp hx).2
  simp only [bne_iff_ne, ne_eq] at hx2
  simp [hx2]

theorem any_filter_false (l : List α) (p q : α → Bool) (h : l.any p = false) :
    (l.filter q).any p = false := by
  rw [List.any_eq_false] at h ⊢
  intro x hx
  exact h x (List.mem_of_mem_filter hx)

/-- C1: a first `refresh` call with an issued (verifying, stored) refresh
token succeeds, returning a freshly signed token pair and deleting the
stored record for the presented token; and any later call presenting the
identical token string against a store that no longer holds it (while the
token still verifies) fails with the distinguishable revoked
authorization error, not a generic not-found. -/
theorem auth_refresh_single_use
    (now : Nat) (db : Db) (t : SignedToken) (payload : TokenPayload)
    (hver : TokenService.verifyRefreshToken now t = .ok payload)
    (hmem : db.refreshTokens.any (fun r => r.token == t) = true)
    (hfresh : db.refreshTokens.any
      (fun r => r.token == TokenService.signRefreshToken now payload.userId) = false) :
    ((AuthService.refreshToken now db t).1 =
        .ok { accessToken := TokenService.signAccessToken now payload.userId,
              refreshToken := TokenService.signRefreshToken now payload.userId } ∧
     (AuthService.refreshToken now db t).2.refreshTokens.any
        (fun r => r.token == t) = false) ∧
    (∀ (now2 : Nat) (db2 : Db) (payload2 : TokenPayload),
      TokenService.verifyRefreshToken now2 t = .ok payload2 →
      db2.refreshTokens.any (fun r => r.token == t) = false →
      AuthService.refreshToken now2 db2 t =
        (.error (.unauthorizedMsg "Refresh token has been revoked"), db2)) := by
  constructor
  · have hne : (TokenService.signRefreshToken now payload.userId == t) = false := by
      cases hEq : TokenService.signRefreshToken now payload.userId == t
      · rfl
      · rw [show TokenService.signRefreshToken now payload.userId = t from eq_of_beq hEq]
          at hfresh
        rw [hfresh] at hmem
        exact Bool.noConfusion hmem
    obtain ⟨r, hr⟩ := any_true_exists_find _ _ hmem
    have hcal : AuthService.refreshTokenTry now db t =
        AuthService.generateTokens now payload.userId
          { db with refreshTokens := db.refreshTokens.filter (fun r => r.token != t) } := by
      simp only [AuthService.refreshTokenTry, hver, Db.refreshTokenFindUniqueOrThrow, hr,
        Db.refreshTokenDelete, hmem, if_true]
    have hgen := generateTokens_ok now payload.userId
      { db with refreshTokens := db.refreshTokens.filter (fun r => r.token != t) }
      (any_filter_false _ _ _ hfresh)
    simp only [AuthService.refreshToken, hcal, hgen, List.any_append, filter_removes_token,
      List.any_cons, List.any_nil, hne, Bool.false_or, Bool.or_false]
    exact ⟨trivial, trivial⟩
  · intro now2 db2 payload2 hv2 habs
    have hfind := any_false_find_none _ _ habs
    simp [AuthService.refreshToken, AuthService.refreshTokenTry, hv2,
      Db.refreshTokenFindUniqueOrThrow, hfind, isNotFoundPrismaError]

/-- Witness for C1: the token of user 7 is stored and redeemed once; the
second presentation against the rotated store is rejected with the
revoked error. -/
theorem auth_refresh_single_use_witness :
    AuthService.refreshToken 0
      { users := [], nextUserId := 1,
        refreshTokens := [{ token := TokenService.signRefreshToken 0 7, userId := 7,
                            expiresAt := 604800000 }] }
      { secret := "refresh-secret", payload := { userId := 7, iat := 0, exp := 100 } } =
    (.error (.unauthorizedMsg "Refresh token has been revoked"),
     { users := [], nextUserId := 1,
       refreshTokens := [{ token := TokenService.signRefreshToken 0 7, userId := 7,
                           expiresAt := 604800000 }] }) :=
  (auth_refresh_single_use 0
    { users := [],
      refreshTokens := [{ token := { secret := "refresh-secret",
                                     payload := { userId := 7, iat := 0, exp := 100 } },
                          userId := 7, expiresAt := 100000 }],
      nextUserId := 1 }
    { secret := "refresh-secret", payload := { userId := 7, iat := 0, exp := 100 } }
    { userId := 7, iat := 0, exp := 100 } rfl rfl rfl).2 0
    { users := [], nextUserId := 1,
      refreshTokens := [{ token := TokenService.signRefreshToken 0 7, userId := 7,
                          expiresAt := 604800000 }] }
    { userId := 7, iat := 0, exp := 100 } rfl rfl

/-- C7: registering a fresh email and then logging in with the same
credentials succeeds; the registered user gets id `db.nextUserId`, login
returns the pair signed for exactly that id, and verifying the returned
access and refresh tokens round-trips to payloads carrying that same
userId. -/
theorem auth_register_login_roundtrip
    (now : Nat) (db : Db) (email password name : String)
    (hemail : db.users.any (fun u => u.email == email) = false)
    (hfresh : db.refreshTokens.any
      (fun r => r.token == TokenService.signRefreshToken now db.nextUserId) = false) :
    (AuthService.register db email password name).1 =
      .ok { id := db.nextUserId, email := email, name := name,
            password := HashingService.hash password } ∧
    (AuthService.login now (AuthService.register db email password name).2 email password).1 =
      .ok { accessToken := TokenService.signAccessToken now db.nextUserId,
            refreshToken := TokenService.signRefreshToken now db.nextUserId } ∧
    TokenService.verifyAccessToken now (TokenService.signAccessToken now db.nextUserId) =
      .ok { userId := db.nextUserId, iat := now,
            exp := now + envConfig.ACCESS_TOKEN_EXPIRES_IN } ∧
    TokenService.verifyRefreshToken now (TokenService.signRefreshToken now db.nextUserId) =
      .ok { userId := db.nextUserId, iat := now,
            exp := now + envConfig.REFRESH_TOKEN_EXPIRES_IN } := by
  have hreg : AuthService.register db email password name =
      (.ok { id := db.nextUserId, email := email, name := name,
             password := HashingService.hash password },
       { db with
          users := db.users ++ [{ id := db.nextUserId, email := email, name := name,
                                  password := HashingService.hash password }],
          nextUserId := db.nextUserId + 1 }) := by
    simp [AuthService.register, Db.userCreate, hemail]
  refine ⟨by rw [hreg], ?_, verifyAccessToken_signAccessToken now db.nextUserId,
    verifyRefreshToken_signRefreshToken now db.nextUserId⟩
  rw [hreg]
  have hfind : Db.userFindUnique
      { db with
        users := db.users ++ [{ id := db.nextUserId, email := email, name := name,
                                password := HashingService.hash password }],
        nextUserId := db.nextUserId + 1 } email =
      some { id := db.nextUserId, email := email, name := name,
             password := HashingService.hash password } := by
    simp only [Db.userFindUnique, List.find?_append, any_false_find_none _ _ hemail,
      Option.none_orElse]
    simp [List.find?]
  have hcmp : HashingService.compare password (HashingService.hash password) = true := by
    simp [HashingService.compare, HashingService.hash]
  simp only [AuthService.login, hfind, hcmp]
  rw [if_neg (by simp)]
  rw [generateTokens_ok now db.nextUserId _ (by simpa using hfresh)]

/-- Witness for C7: on an empty database, register then login with the
same credentials yields a verifying token pair for user id 1. -/
theorem auth_register_login_roundtrip_witness :
    (AuthService.register { users := [], refreshTokens := [], nextUserId := 1 }
        "a@b.c" "secret" "A").1 =
      .ok { id := 1, email := "a@b.c", name := "A",
            password := HashingService.hash "secret" } ∧
    (AuthService.login 0
        (AuthService.register { users := [], refreshTokens := [], nextUserId := 1 }
          "a@b.c" "secret" "A").2 "a@b.c" "secret").1 =
      .ok { accessToken := TokenService.signAccessToken 0 1,
            refreshToken := TokenService.signRefreshToken 0 1 } ∧
    TokenService.verifyAccessToken 0 (TokenService.signAccessToken 0 1) =
      .ok { userId := 1, iat := 0, exp := 0 + envConfig.ACCESS_TOKEN_EXPIRES_IN } ∧
    TokenService.verifyRefreshToken 0 (TokenService.signRefreshToken 0 1) =
      .ok { userId := 1, iat := 0, exp := 0 + envConfig.REFRESH_TOKEN_EXPIRES_IN } :=
  auth_register_login_roundtrip 0 { users := [], refreshTokens := [], nextUserId := 1 }
    "a@b.c" "secret" "A" rfl rfl

/-- C10: when, after the presented token record has been deleted, the
reissue step inside `generateTokens` fails, the caller gets the bare
generic `UnauthorizedException` and the deletion is not rolled back: the
resulting state is the post-delete state, from which the old token is
absent even though no replacement pair was issued. -/
theorem auth_refresh_post_delete_failure_not_rolled_back
    (now : Nat) (db : Db) (t : SignedToken) (payload : TokenPayload) (e : AppError)
    (hver : TokenService.verifyRefreshToken now t = .ok payload)
    (hmem : db.refreshTokens.any (fun r => r.token == t) = true)
    (hgen : (AuthService.generateTokens now payload.userId
      { db with refreshTokens := db.refreshTokens.filter (fun r => r.token != t) }).1 =
      .error e) :
    AuthService.refreshToken now db t =
      (.error .unauthorized,
       { db with refreshTokens := db.refreshTokens.filter (fun r => r.token != t) }) ∧
    (db.refreshTokens.filter (fun r => r.token != t)).any
      (fun r => r.token == t) = false := by
  obtain ⟨hnf, hst⟩ := generateTokens_error_state now payload.userId _ e hgen
  obtain ⟨r, hr⟩ := any_true_exists_find _ _ hmem
  have hcal : AuthService.refreshTokenTry now db t =
      AuthService.generateTokens now payload.userId
        { db with refreshTokens := db.refreshTokens.filter (fun r => r.token != t) } := by
    simp only [AuthService.refreshTokenTry, hver, Db.refreshTokenFindUniqueOrThrow, hr,
      Db.refreshTokenDelete, hmem, if_true]
  have hpair : AuthService.generateTokens now payload.userId
      { db with refreshTokens := db.refreshTokens.filter (fun r => r.token != t) } =
      (.error e,
       { db with refreshTokens := db.refreshTokens.filter (fun r => r.token != t) }) :=
    Prod.ext_iff.mpr ⟨hgen, hst⟩
  refine ⟨?_, filter_removes_token _ _⟩
  simp only [AuthService.refreshToken, hcal, hpair, hnf, Bool.false_eq_true, if_false]

/-- Witness for C10: the store holds the presented token of user 1 and,
by collision, the very token the rotation would reissue; the reissue
create then fails with a unique-constraint error after the delete, the
caller sees the generic unauthorized error, and the old token stays
deleted. -/
theorem auth_refresh_post_delete_failure_witness :
    AuthService.refreshToken 0
      { users := [], nextUserId := 1,
        refreshTokens :=
          [{ token := { secret := "refresh-secret",
                        payload := { userId := 1, iat := 0, exp := 100 } },
             userId := 1, expiresAt := 100000 },
           { token := { secret := "refresh-secret",
                        payload := { userId := 1, iat := 0, exp := 604800 } },
             userId := 1, expiresAt := 604800000 }] }
      { secret := "refresh-secret", payload := { userId := 1, iat := 0, exp := 100 } } =
    (.error .unauthorized,
     { users := [], nextUserId := 1,
       refreshTokens :=
         [{ token := { secret := "refresh-secret",
                       payload := { userId := 1, iat := 0, exp := 604800 } },
            userId := 1, expiresAt := 604800000 }] }) := by
  have h := (auth_refresh_post_delete_failure_not_rolled_back 0
    { users := [], nextUserId := 1,
      refreshTokens :=
        [{ token := { secret := "refresh-secret",
                      payload := { userId := 1, iat := 0, exp := 100 } },
           userId := 1, expiresAt := 100000 },
         { token := { secret := "refresh-secret",
                      payload := { userId := 1, iat := 0, exp := 604800 } },
           userId := 1, expiresAt := 604800000 }] }
    { secret := "refresh-secret", payload := { userId := 1, iat := 0, exp := 100 } }
    { userId := 1, iat := 0, exp := 100 } (.prismaKnown "P2002") rfl rfl rfl).1
  simpa using h

theorem andLoop_all_ok (err : AppError) (gs : List (Except AppError Bool))
    (h : ∀ g ∈ gs, g = .ok true) : andLoop err gs = .ok true := by
  induction gs with
  | nil => rfl
  | cons g gs ih =>
    rw [h g (List.mem_cons_self g gs)]
    exact ih fun x hx => h x (List.mem_cons_of_mem g hx)

theorem andLoop_first_error (err e : AppError) (gs1 gs2 : List (Except AppError Bool))
    (h1 : ∀ g ∈ gs1, g = .ok true) :
    andLoop err (gs1 ++ .error e :: gs2) = .error e := by
  induction gs1 with
  | nil => rfl
  | cons g gs ih =>
    rw [List.cons_append, h1 g (List.mem_cons_self g gs)]
    exact ih fun x hx => h1 x (List.mem_cons_of_mem g hx)

theorem orLoop_first_ok (err : AppError) (gs1 gs2 : List (Except AppError Bool))
    (h1 : ∀ g ∈ gs1, ∃ e, g = .error e) :
    orLoop err (gs1 ++ .ok true :: gs2) = .ok true := by
  induction gs1 generalizing err with
  | nil => rfl
  | cons g gs ih =>
    obtain ⟨e, he⟩ := h1 g (List.mem_cons_self g gs)
    rw [List.cons_append, he]
    exact ih e fun x hx => h1 x (List.mem_cons_of_mem g hx)

theorem orLoop_all_error (err : AppError) (es : List AppError) :
    orLoop err (es.map Except.error) = .error (es.getLastD err) := by
  induction es generalizing err with
  | nil => rfl
  | cons e es ih =>
    rw [List.map_cons]
    show orLoop e (es.map Except.error) = .error ((e :: es).getLastD err)
    rw [ih e]
    cases es <;> rfl

/-- C8: in AND mode the guard composer walks the declared strategies in
order: when every strategy succeeds access is granted; at the first
strategy that fails it raises that strategy's own error, the remaining
strategies never being consulted (the result does not depend on them);
and in particular AND over [Bearer (failing), APIKey (passing)] denies
access even though the API-key strategy would pass. -/
theorem guard_and_mode (now : Nat) (req : GuardRequest) :
    (∀ l : List AuthType, (∀ a ∈ l, authTypeGuardMap now req a = .ok true) →
      AuthenticationGuard.canActivate now req (some { authTypes := l, condition := .And }) =
        .ok true) ∧
    (∀ (l1 : List AuthType) (a : AuthType) (l2 : List AuthType) (e : AppError),
      (∀ b ∈ l1, authTypeGuardMap now req b = .ok true) →
      authTypeGuardMap now req a = .error e →
      AuthenticationGuard.canActivate now req
        (some { authTypes := l1 ++ a :: l2, condition := .And }) = .error e) ∧
    (APIKeyGuard.canActivate
        { authorizationToken := none, xApiKey := some envConfig.SECRET_API_KEY } = .ok true ∧
     AuthenticationGuard.canActivate 0
        { authorizationToken := none, xApiKey := some envConfig.SECRET_API_KEY }
        (some { authTypes := [.Bearer, .APIKey], condition := .And }) =
       .error .unauthorized) := by
  refine ⟨fun l hl => ?_, fun l1 a l2 e h1 ha => ?_, by simp [APIKeyGuard.canActivate], by rfl⟩
  · simp only [AuthenticationGuard.canActivate, Option.getD_some]
    rw [if_neg (by simp)]
    exact andLoop_all_ok _ _ fun g hg => by
      obtain ⟨b, hb, hgb⟩ := List.mem_map.mp hg
      rw [← hgb]
      exact hl b hb
  · simp only [AuthenticationGuard.canActivate, Option.getD_some]
    rw [if_neg (by simp)]
    rw [List.map_append, List.map_cons, ha]
    exact andLoop_first_error _ _ _ _ fun g hg => by
      obtain ⟨b, hb, hgb⟩ := List.mem_map.mp hg
      rw [← hgb]
      exact h1 b hb

/-- Witness for C8: with no credentials at all, AND over
[None, APIKey, Bearer] short-circuits at the failing API-key strategy
with its own unauthorized error, never consulting the Bearer strategy. -/
theorem guard_and_mode_witness :
    AuthenticationGuard.canActivate 0 { authorizationToken := none, xApiKey := none }
      (some { authTypes := [.None, .APIKey, .Bearer], condition := .And }) =
      .error .unauthorized :=
  (guard_and_mode 0 { authorizationToken := none, xApiKey := none }).2.1
    [.None] .APIKey [.Bearer] .unauthorized (fun b hb => by fin_cases hb; rfl) rfl

/-- C9: in OR mode the guard composer walks the declared strategies in
order: the first strategy that succeeds short-circuits to overall success
(the result does not depend on the remaining strategies); and when every
strategy fails, the composer raises the error of the last encountered
failure. -/
theorem guard_or_mode (now : Nat) (req : GuardRequest) :
    (∀ (l1 : List AuthType) (a : AuthType) (l2 : List AuthType),
      (∀ b ∈ l1, ∃ e, authTypeGuardMap now req b = .error e) →
      authTypeGuardMap now req a = .ok true →
      AuthenticationGuard.canActivate now req
        (some { authTypes := l1 ++ a :: l2, condition := .Or }) = .ok true) ∧
    (∀ (l : List AuthType) (es : List AppError),
      l.map (authTypeGuardMap now req) = es.map Except.error →
      AuthenticationGuard.canActivate now req
        (some { authTypes := l, condition := .Or }) =
        .error (es.getLastD .unauthorized)) := by
  refine ⟨fun l1 a l2 h1 ha => ?_, fun l es hl => ?_⟩
  · simp only [AuthenticationGuard.canActivate, Option.getD_some, if_pos rfl]
    rw [List.map_append, List.map_cons, ha]
    exact orLoop_first_ok _ _ _ fun g hg => by
      obtain ⟨b, hb, hgb⟩ := List.mem_map.mp hg
      obtain ⟨e, he⟩ := h1 b hb
      exact ⟨e, by rw [← hgb, he]⟩
  · simp only [AuthenticationGuard.canActivate, Option.getD_some, if_pos rfl]
    rw [hl]
    exact orLoop_all_error _ _

/-- Witness for C9: with no credentials, OR over [APIKey, None] succeeds
at the second strategy after the first fails, and OR over
[APIKey, Bearer] fails with the last failure's error. -/
theorem guard_or_mode_witness :
    AuthenticationGuard.canActivate 0 { authorizationToken := none, xApiKey := none }
      (some { authTypes := [.APIKey, .None, .Bearer], condition := .Or }) = .ok true ∧
    AuthenticationGuard.canActivate 0 { authorizationToken := none, xApiKey := none }
      (some { authTypes := [.APIKey, .Bearer], condition := .Or }) =
      .error .unauthorized :=
  ⟨(guard_or_mode 0 { authorizationToken := none, xApiKey := none }).1
      [.APIKey] .None [.Bearer]
      (fun b hb => ⟨.unauthorized, by fin_cases hb; rfl⟩) rfl,
   (guard_or_mode 0 { authorizationToken := none, xApiKey := none }).2
      [.APIKey, .Bearer] [.unauthorized, .unauthorized] rfl⟩

theorem pc_update_eq_iff {n : Nat} (pc : Fin n → RefreshPc) (i : Fin n) (v w : RefreshPc)
    (hvw : v ≠ w) (k : Fin n) :
    Function.update pc i v k = w ↔ (k ≠ i ∧ pc k = w) := by
  by_cases hk : k = i
  · subst hk
    simp [Function.update_same, hvw]
  · simp [Function.update_noteq hk, hk]

theorem isWinner_mk_iff {n : Nat} (s : ConcState n) (st : List RefreshTokenRecord)
    (i : Fin n) (v : RefreshPc) (hv1 : v ≠ .deleted) (hv2 : v ≠ .succeeded)
    (hiw : ¬ isWinner s i) (j : Fin n) :
    isWinner { store := st, pc := Function.update s.pc i v } j ↔ isWinner s j := by
  by_cases hj : j = i
  · subst hj
    simp only [isWinner] at hiw ⊢
    rw [Function.update_same]
    constructor
    · rintro (h | h)
      · exact absurd h hv1
      · exact absurd h hv2
    · intro h
      exact absurd h hiw
  · simp only [isWinner]
    rw [Function.update_noteq hj]

theorem concInv_step_nonwinner {n : Nat} {t : SignedToken}
    {freshRec : Fin n → RefreshTokenRecord} {s : ConcState n}
    (hInv : ConcInv t freshRec s) (i : Fin n) (v : RefreshPc)
    (hiw : ¬ isWinner s i) (hv1 : v ≠ .deleted) (hv2 : v ≠ .succeeded)
    (hv3 : v ≠ .failedGeneric) (hrev : v = .failedRevoked → ∃ w, isWinner s w) :
    ConcInv t freshRec { store := s.store, pc := Function.update s.pc i v } := by
  obtain ⟨hG, hOr, hF, hR⟩ := hInv
  have hWiff := isWinner_mk_iff s s.store i v hv1 hv2 hiw
  refine ⟨?_, ?_, ?_, ?_⟩
  · intro j hj
    exact hG j ((pc_update_eq_iff s.pc i v .failedGeneric hv3 j).mp hj).2
  · rcases hOr with ⟨ht, hnw⟩ | ⟨ht, w, hw, hu⟩
    · exact Or.inl ⟨ht, fun j hj => hnw j ((hWiff j).mp hj)⟩
    · exact Or.inr ⟨ht, w, (hWiff w).mpr hw, fun j hj => hu j ((hWiff j).mp hj)⟩
  · intro i2 h2
    obtain ⟨k, hk⟩ := hF i2 h2
    have hki : k ≠ i := fun hEq => hiw (Or.inr (hEq ▸ hk))
    exact ⟨k, show Function.update s.pc i v k = RefreshPc.succeeded from
      (by rw [Function.update_noteq hki]; exact hk)⟩
  · rintro ⟨j, hj⟩
    by_cases hji : j = i
    · subst hji
      have hj2 : Function.update s.pc j v j = RefreshPc.failedRevoked := hj
      rw [Function.update_same] at hj2
      obtain ⟨w, hw⟩ := hrev hj2
      exact ⟨w, (hWiff w).mpr hw⟩
    · have hj2 : Function.update s.pc i v j = RefreshPc.failedRevoked := hj
      rw [Function.update_noteq hji] at hj2
      obtain ⟨w, hw⟩ := hR ⟨j, hj2⟩
      exact ⟨w, (hWiff w).mpr hw⟩

theorem concInv_step {n : Nat} {t : SignedToken} {freshRec : Fin n → RefreshTokenRecord}
    (hne : ∀ i, ((freshRec i).token == t) = false)
    {s s1 : ConcState n} (hInv : ConcInv t freshRec s)
    (hstep : ConcStep t freshRec s s1) : ConcInv t freshRec s1 := by
  obtain ⟨i, hstep⟩ := hstep
  cases hstep with
  | verify hpc =>
    exact concInv_step_nonwinner hInv i .verified
      (by simp [isWinner, hpc]) (by simp) (by simp) (by simp) (by simp)
  | lookupHit hpc hcond =>
    exact concInv_step_nonwinner hInv i .found
      (by simp [isWinner, hpc]) (by simp) (by simp) (by simp) (by simp)
  | lookupMiss hpc hcond =>
    refine concInv_step_nonwinner hInv i .failedRevoked
      (by simp [isWinner, hpc]) (by simp) (by simp) (by simp) (fun _ => ?_)
    rcases hInv.2.1 with ⟨ht, hnw⟩ | ⟨ht, w, hw, hu⟩
    · rw [hcond] at ht
      exact Bool.noConfusion ht
    · exact ⟨w, hw⟩
  | deleteMiss hpc hcond =>
    refine concInv_step_nonwinner hInv i .failedRevoked
      (by simp [isWinner, hpc]) (by simp) (by simp) (by simp) (fun _ => ?_)
    rcases hInv.2.1 with ⟨ht, hnw⟩ | ⟨ht, w, hw, hu⟩
    · rw [hcond] at ht
      exact Bool.noConfusion ht
    · exact ⟨w, hw⟩
  | deleteHit hpc hcond =>
    obtain ⟨hG, hOr, hF, hR⟩ := hInv
    rcases hOr with ⟨ht, hnw⟩ | ⟨ht, hwu⟩
    · refine ⟨?_, ?_, ?_, ?_⟩
      · intro j hj
        exact hG j ((pc_update_eq_iff s.pc i .deleted .failedGeneric (by simp) j).mp hj).2
      · refine Or.inr ⟨filter_removes_token s.store t, i,
          Or.inl (Function.update_same i .deleted s.pc), ?_⟩
        intro j hj
        by_cases hji : j = i
        · exact hji
        · exfalso
          refine hnw j ?_
          have hj2 : Function.update s.pc i RefreshPc.deleted j = RefreshPc.deleted ∨
              Function.update s.pc i RefreshPc.deleted j = RefreshPc.succeeded := hj
          rw [Function.update_noteq hji] at hj2
          exact hj2
      · intro i2 h2
        have hpre : s.store.any (fun r => r.token == (freshRec i2).token) = true := by
          cases hcase : s.store.any (fun r => r.token == (freshRec i2).token)
          · have h2b : (s.store.filter (fun r => r.token != t)).any
                (fun r => r.token == (freshRec i2).token) = true := h2
            rw [any_filter_false _ _ _ hcase] at h2b
            exact Bool.noConfusion h2b
          · rfl
        obtain ⟨k, hk⟩ := hF i2 hpre
        have hki : k ≠ i := fun hEq => by
          rw [hEq, hpc] at hk
          exact RefreshPc.noConfusion hk
        exact ⟨k, show Function.update s.pc i RefreshPc.deleted k = RefreshPc.succeeded from
          (by rw [Function.update_noteq hki]; exact hk)⟩
      · rintro ⟨j, hj⟩
        exact ⟨i, Or.inl (Function.update_same i .deleted s.pc)⟩
    · rw [hcond] at ht
      exact Bool.noConfusion ht
  | reissueOk hpc hcond =>
    obtain ⟨hG, hOr, hF, hR⟩ := hInv
    rcases hOr with ⟨ht, hnw⟩ | ⟨ht, w, hw, hu⟩
    · exact absurd (Or.inl hpc) (hnw i)
    · have hwi : i = w := hu i (Or.inl hpc)
      refine ⟨?_, ?_, ?_, ?_⟩
      · intro j hj
        exact hG j ((pc_update_eq_iff s.pc i .succeeded .failedGeneric (by simp) j).mp hj).2
      · refine Or.inr ⟨?_, i, Or.inr (Function.update_same i .succeeded s.pc), ?_⟩
        · show (s.store ++ [freshRec i]).any (fun r => r.token == t) = false
          rw [List.any_append, ht, Bool.false_or]
          simp [hne i]
        · intro j hj
          by_cases hji : j = i
          · exact hji
          · have hj2 : Function.update s.pc i RefreshPc.succeeded j = RefreshPc.deleted ∨
                Function.update s.pc i RefreshPc.succeeded j = RefreshPc.succeeded := hj
            rw [Function.update_noteq hji] at hj2
            rw [hu j hj2, ← hwi]
      · intro i2 h2
        have h2b : (s.store ++ [freshRec i]).any
            (fun r => r.token == (freshRec i2).token) = true := h2
        rw [List.any_append] at h2b
        cases hcase : s.store.any (fun r => r.token == (freshRec i2).token)
        · exact ⟨i, Function.update_same i .succeeded s.pc⟩
        · obtain ⟨k, hk⟩ := hF i2 hcase
          have hki : k ≠ i := fun hEq => by
            rw [hEq, hpc] at hk
            exact RefreshPc.noConfusion hk
          exact ⟨k, show Function.update s.pc i RefreshPc.succeeded k = RefreshPc.succeeded
            from (by rw [Function.update_noteq hki]; exact hk)⟩
      · rintro ⟨j, hj⟩
        exact ⟨i, Or.inr (Function.update_same i .succeeded s.pc)⟩
  | reissueDup hpc hcond =>
    exfalso
    obtain ⟨hG, hOr, hF, hR⟩ := hInv
    obtain ⟨k, hk⟩ := hF i hcond
    rcases hOr with ⟨ht, hnw⟩ | ⟨ht, w, hw, hu⟩
    · exact hnw i (Or.inl hpc)
    · have h1 : i = w := hu i (Or.inl hpc)
      have h2 : k = w := hu k (Or.inr hk)
      rw [h2, ← h1, hpc] at hk
      exact RefreshPc.noConfusion hk

theorem concInv_init {n : Nat} (t : SignedToken) (freshRec : Fin n → RefreshTokenRecord)
    (store0 : List RefreshTokenRecord)
    (hmem : store0.any (fun r => r.token == t) = true)
    (hfresh : ∀ i, store0.any (fun r => r.token == (freshRec i).token) = false) :
    ConcInv t freshRec { store := store0, pc := fun _ => .start } := by
  refine ⟨fun i => by simp, Or.inl ⟨hmem, fun i hi => ?_⟩, fun i hi => ?_, ?_⟩
  · rcases hi with h | h <;> exact RefreshPc.noConfusion h
  · rw [hfresh i] at hi
    exact Bool.noConfusion hi
  · rintro ⟨j, hj⟩
    exact RefreshPc.noConfusion hj

theorem concInv_reach {n : Nat} {t : SignedToken} {freshRec : Fin n → RefreshTokenRecord}
    (hne : ∀ i, ((freshRec i).token == t) = false)
    {s0 s : ConcState n} (hinit : ConcInv t freshRec s0)
    (hreach : ConcReach t freshRec s0 s) : ConcInv t freshRec s := by
  induction hreach with
  | refl => exact hinit
  | tail hab hbc ih => exact concInv_step hne ih hbc

/-- C2: for N ≥ 2 interleaved refresh tasks presenting the same stored
token, every complete schedule (all tasks at a terminal outcome) has
exactly one task succeed with a new token pair while the other N−1 fail
with the revoked authorization error — never two successes — because the
conditional delete of the token row is a single atomic store step that
only one task can win. -/
theorem concurrent_refresh_exactly_one_success
    {n : Nat} (hn : 2 ≤ n) (t : SignedToken) (freshRec : Fin n → RefreshTokenRecord)
    (store0 : List RefreshTokenRecord) (s : ConcState n)
    (hmem : store0.any (fun r => r.token == t) = true)
    (hfresh : ∀ i, store0.any (fun r => r.token == (freshRec i).token) = false)
    (hreach : ConcReach t freshRec { store := store0, pc := fun _ => .start } s)
    (hterm : ∀ i, (s.pc i).terminal = true) :
    ∃ w, s.pc w = .succeeded ∧ ∀ j, j ≠ w → s.pc j = .failedRevoked := by
  have hne : ∀ i, ((freshRec i).token == t) = false := by
    intro i
    cases hEq : (freshRec i).token == t
    · rfl
    · exfalso
      have hfr := hfresh i
      rw [show (freshRec i).token = t from eq_of_beq hEq] at hfr
      rw [hfr] at hmem
      exact Bool.noConfusion hmem
  obtain ⟨hG, hOr, hF, hR⟩ :=
    concInv_reach hne (concInv_init t freshRec store0 hmem hfresh) hreach
  have hnz : 0 < n := by omega
  rcases hOr with ⟨ht, hnw⟩ | ⟨ht, w, hw, hu⟩
  · exfalso
    have h0 : s.pc ⟨0, hnz⟩ = .failedRevoked := by
      have ht0 := hterm ⟨0, hnz⟩
      have hnw0 := hnw ⟨0, hnz⟩
      have hG0 := hG ⟨0, hnz⟩
      cases hpc : s.pc ⟨0, hnz⟩
      · rw [hpc] at ht0
        exact Bool.noConfusion ht0
      · rw [hpc] at ht0
        exact Bool.noConfusion ht0
      · rw [hpc] at ht0
        exact Bool.noConfusion ht0
      · exact absurd (Or.inl hpc) hnw0
      · exact absurd (Or.inr hpc) hnw0
      · rfl
      · exact absurd hpc hG0
    obtain ⟨w, hw⟩ := hR ⟨⟨0, hnz⟩, h0⟩
    exact hnw w hw
  · refine ⟨w, ?_, ?_⟩
    · rcases hw with hdel | hsucc
      · have htw := hterm w
        rw [hdel] at htw
        exact Bool.noConfusion htw
      · exact hsucc
    · intro j hj
      have htj := hterm j
      have hGj := hG j
      cases hpc : s.pc j
      · rw [hpc] at htj
        exact Bool.noConfusion htj
      · rw [hpc] at htj
        exact Bool.noConfusion htj
      · rw [hpc] at htj
        exact Bool.noConfusion htj
      · exact absurd (hu j (Or.inl hpc)) hj
      · exact absurd (hu j (Or.inr hpc)) hj
      · rfl
      · exact absurd hpc hGj

/-- Witness for C2: in the two-task race of the `raceS` states, task 0
wins the delete and succeeds while task 1 fails with the revoked error. -/
theorem concurrent_refresh_witness :
    raceS6.pc 0 = .succeeded ∧ raceS6.pc 1 = .failedRevoked := by
  have hreach : ConcReach raceToken raceFreshRec raceInit raceS6 :=
    Relation.ReflTransGen.head ⟨0, .verify raceInit (by decide)⟩
      (Relation.ReflTransGen.head ⟨0, .lookupHit raceS1 (by decide) (by decide)⟩
        (Relation.ReflTransGen.head ⟨0, .deleteHit raceS2 (by decide) (by decide)⟩
          (Relation.ReflTransGen.head ⟨0, .reissueOk raceS3 (by decide) (by decide)⟩
            (Relation.ReflTransGen.head ⟨1, .verify raceS4 (by decide)⟩
              (Relation.ReflTransGen.head ⟨1, .lookupMiss raceS5 (by decide) (by decide)⟩
                Relation.ReflTransGen.refl)))))
  obtain ⟨w, hw, hj⟩ := concurrent_refresh_exactly_one_success (by omega) raceToken
    raceFreshRec raceInit.store raceS6 (by decide) (by decide) hreach (by decide)
  fin_cases w
  · exact ⟨hw, hj 1 (by decide)⟩
  · exact absurd hw (by decide)

end CrudGen
